import Mathlib

/-!
Verification development for the mosfet-rs OpAMP client library.

The definitions below are a shallow embedding of the Rust sources:
  * `src/state.rs`        — the six-state FSM (`State`, `StateResponse`, `State.evaluate`)
  * `src/api.rs`          — `ApiClientError`, `ConnectionSettings`, `ApiCallbacks`
  * `src/opamp.rs`        — `defaults` builders
  * `src/httpclient/mod.rs` — `HttpClient` (half-duplex transport)
  * `src/wsclient/mod.rs`   — `WsClient` (full-duplex transport)

External effects (network, wall clock, user callbacks, protobuf codec,
gzip) are passed in as explicit oracle arguments so that every function
is pure and executable; each definition mirrors its Rust counterpart
statement by statement.
-/

namespace Opamp

/-- `ApiClientError` from `src/api.rs`: a numeric code (the source line
number at the raise site) plus a human-readable message. -/
structure ApiClientError where
  code : Nat
  details : String
deriving Repr, DecidableEq

/-- `impl fmt::Display for ApiClientError` prints just the details field. -/
def ApiClientError.toString (e : ApiClientError) : String :=
  e.details

/-- `StateResponse` from `src/state.rs`: the result a transport operation
hands to the FSM. -/
inductive StateResponse where
  | Reply (s : String)
  | Error (s : String)
  | none
deriving Repr, DecidableEq

/-- `State` from `src/state.rs`: each state carries a short log token. -/
inductive State where
  | Disconnected (s : String)
  | Connecting (s : String)
  | Connected (s : String)
  | Polling (s : String)
  | Sending (s : String)
  | Waiting (s : String)
deriving Repr, DecidableEq

/-- The `nullstr!()` macro from `src/state.rs`: the empty string. -/
def nullstr : String := ""

/-- The outcomes of the five `Channel` operations (`src/opamp.rs`) for one
FSM tick, supplied as an oracle: `State.evaluate` invokes at most one of
them per call, so a record of the five pending results models the
`&mut dyn Channel` argument faithfully. -/
structure Channel where
  connect : Except ApiClientError StateResponse
  handshake : Except ApiClientError StateResponse
  poll : Except ApiClientError StateResponse
  send : Except ApiClientError StateResponse
  wait : Except ApiClientError StateResponse

/-- `State::evaluate` from `src/state.rs` lines 35–75, transcribed arm by
arm.  Note every arm returns `Ok`: transport `Err` values are converted
into successor states, never propagated. -/
def State.evaluate (s : State) (client : Channel) : Except ApiClientError State :=
  match s with
  | .Disconnected _ => .ok (.Connecting nullstr)
  | .Connecting _ =>
    match client.connect with
    | .ok (.Reply data) => .ok (.Connected data)
    | .ok .none => .ok (.Connected nullstr)
    | .ok (.Error e) => .ok (.Disconnected e)
    | .error e => .ok (.Disconnected e.toString)
  | .Connected _ =>
    match client.handshake with
    | .ok (.Reply data) => .ok (.Sending data)
    | .ok .none => .ok (.Polling nullstr)
    | .ok (.Error e) => .ok (.Disconnected e)
    | .error e => .ok (.Disconnected e.toString)
  | .Polling _ =>
    match client.poll with
    | .ok (.Reply data) => .ok (.Sending data)
    | .ok .none => .ok s
    | .ok (.Error e) => .ok (.Disconnected e)
    | .error e => .ok (.Connecting e.toString)
  | .Sending _ =>
    match client.send with
    | .ok (.Reply data) => .ok (.Waiting data)
    | .ok .none => .ok (.Polling nullstr)
    | .ok (.Error e) => .ok (.Polling e)
    | .error e => .ok (.Connecting e.toString)
  | .Waiting _ =>
    match client.wait with
    | .ok (.Reply data) => .ok (.Polling data)
    | .ok .none => .ok s
    | .ok (.Error e) => .ok (.Polling e)
    | .error e => .ok (.Connecting e.toString)

/-- The `trigger` method shared by both transports (`src/httpclient/mod.rs`
lines 509–514, `src/wsclient/mod.rs` lines 380–385): run one FSM tick and
fall back to `Disconnected` with an "invalid" token if `evaluate` ever
returned `Err`.  The fallback token differs textually between the two
transports, so it is a parameter. -/
def trigger (fallbackToken : String) (st : State) (client : Channel) : State :=
  match st.evaluate client with
  | .ok s => s
  | .error _ => .Disconnected fallbackToken

/-! ## Protocol data model (generated protobuf types, fields the client uses) -/

/-- `AgentHealth` from the OpAMP protobuf schema. -/
structure AgentHealth where
  healthy : Bool
  start_time_unix_nano : Nat
  last_error : String
deriving Repr, DecidableEq

/-- `AgentDescription`: built by `defaults::agent_description`
(`src/opamp.rs` lines 84–135) from the settings' name and version (the
remaining attributes come from platform probes, abstracted here). -/
structure AgentDescription where
  service_name : String
  service_version : String
deriving Repr, DecidableEq

/-- The agent configuration map, treated as an opaque payload. -/
abbrev AgentConfigMap := String

/-- `EffectiveConfig` from the schema. -/
structure EffectiveConfig where
  config_map : Option AgentConfigMap
deriving Repr, DecidableEq

/-- `RemoteConfigStatus` from the schema. -/
structure RemoteConfigStatus where
  last_remote_config_hash : List Nat
  status : Nat
  error_message : String
deriving Repr, DecidableEq

/-- `PackageStatuses` from the schema (the package map starts empty and is
never populated by this library, so only the error field is modelled). -/
structure PackageStatuses where
  error_message : String
deriving Repr, DecidableEq

/-- `AgentToServer`: the outbound protocol message.  Field defaults match
prost's `AgentToServer::default()` (everything zero / empty / `None`). -/
structure AgentToServer where
  instance_uid : String := ""
  sequence_num : Nat := 0
  capabilities : Nat := 0
  flags : Nat := 0
  agent_description : Option AgentDescription := Option.none
  health : Option AgentHealth := Option.none
  effective_config : Option EffectiveConfig := Option.none
  remote_config_status : Option RemoteConfigStatus := Option.none
  package_statuses : Option PackageStatuses := Option.none
  agent_disconnect : Option Unit := Option.none
deriving Repr, DecidableEq

/-- The sub-offers of `ConnectionSettingsOffers`; their payloads are never
inspected by the client, only their presence. -/
structure ConnectionSettingsOffers where
  own_metrics : Option Unit := Option.none
  own_traces : Option Unit := Option.none
  own_logs : Option Unit := Option.none
deriving Repr, DecidableEq

/-- `ServerToAgent`: the inbound protocol message; payloads of fields the
client only tests for presence are abstracted to simple types. -/
structure ServerToAgent where
  instance_uid : String := ""
  flags : Nat := 0
  command : Option String := Option.none
  error_response : Option String := Option.none
  remote_config : Option String := Option.none
  connection_settings : Option ConnectionSettingsOffers := Option.none
  packages_available : Option Unit := Option.none
deriving Repr, DecidableEq

/-- `ServerToAgentFlags::ReportFullState` bit from the OpAMP schema. -/
def ReportFullStateFlag : Nat := 1

/-! ## `defaults` builders from `src/opamp.rs` -/

/-- `defaults::remote_config_status`: unset hash and status, empty message. -/
def defaultRemoteConfigStatus : RemoteConfigStatus :=
  { last_remote_config_hash := [], status := 0, error_message := "" }

/-- `defaults::package_statuses`: empty map, empty message. -/
def defaultPackageStatuses : PackageStatuses :=
  { error_message := "" }

/-- `defaults::agent_health`: unhealthy, current wall-clock start time. -/
def defaultAgentHealth (now : Nat) : AgentHealth :=
  { healthy := false, start_time_unix_nano := now, last_error := "" }

/-- `defaults::agent_description` applied to the settings' name/version. -/
def defaultAgentDescription (name version : String) : AgentDescription :=
  { service_name := name, service_version := version }

/-! ## `src/api.rs`: settings and the user-callback oracle -/

/-- `ConnectionSettings` from `src/api.rs` (the `debugmode` log level is
irrelevant to the verified behaviour and omitted).  Defaults follow
`impl Default for ConnectionSettings`. -/
structure ConnectionSettings where
  server_endpoint : String := "ws://127.0.0.1:4320"
  api_key : String := ""
  listen_path : String := "/v1/opamp"
  name : String := "io.opentelemetry.collector"
  version : String := "0.0.1"
  instance_id : String := ""
deriving Repr, DecidableEq

/-- The `ApiCallbacks` trait from `src/api.rs`, modelled as a record of
pure oracles.  `get_features` is the pair the user returns on its (single)
invocation; `on_error` is a pure sink and needs no field. -/
structure ApiCallbacks where
  get_configuration : Except ApiClientError (Option AgentConfigMap)
  get_features : Nat × Nat
  on_loop : Except ApiClientError (Option AgentToServer)
  on_health_check : ServerToAgent → Except ApiClientError (Option AgentToServer)
  on_command : ServerToAgent → Except ApiClientError (Option AgentToServer)
  on_agent_remote_config : ServerToAgent → Except ApiClientError (Option AgentToServer)
  on_connection_settings_offers : ServerToAgent → Except ApiClientError (Option AgentToServer)
  on_packages_available : ServerToAgent → Except ApiClientError (Option AgentToServer)

/-! ## `src/httpclient/mod.rs`: the half-duplex HTTP transport

Network I/O is abstracted: a `post` oracle stands for the whole
POST/response/decode round trip of `send_and_receive`, and `now` stands
for `get_time_nanos!()`.  The byte-level response decoding stage is
modelled separately (`httpDecodeBody` below) for the framing claims. -/

/-- `SERVER_POLL_DELAY` (`src/httpclient/mod.rs` line 17): 30 s in ns. -/
def SERVER_POLL_DELAY : Nat := 30000000000

/-- The mutable fields of `HttpClient` (`src/httpclient/mod.rs` lines
51–63).  The reqwest handle and URL perform I/O only and are oracles at
the call sites; the callback box is passed explicitly to each method. -/
structure HttpClient where
  settings : ConnectionSettings
  backoff : Nat
  seqno : Nat
  last_sent_timestamp : Nat
  agent_state : Option AgentToServer
  inbox : List ServerToAgent
  outbox : List AgentToServer
  state : State
deriving Repr, DecidableEq

/-- `HttpClient::new` (lines 66–87). -/
def HttpClient.new (settings : ConnectionSettings) : HttpClient :=
  { settings := settings
    backoff := 0
    seqno := 0
    last_sent_timestamp := 0
    agent_state := Option.none
    inbox := []
    outbox := []
    state := .Disconnected "" }

/-- `HttpClient::get_status` (lines 223–258): lazily build the initial
`AgentToServer` from the user callbacks on first access; afterwards
return the stored value unchanged.  The source's only exit is `Ok(...)`,
so the `Result` wrapper is dropped here. -/
def HttpClient.get_status (self : HttpClient) (cb : ApiCallbacks) (now : Nat) :
    HttpClient × AgentToServer :=
  match self.agent_state with
  | some st => (self, st)
  | Option.none =>
    let config_map :=
      match cb.get_configuration with
      | .ok reply => reply
      | .error _ => Option.none
    let (capabilities, flags) := cb.get_features
    let st : AgentToServer :=
      { instance_uid := self.settings.instance_id
        sequence_num := 0
        capabilities := capabilities
        flags := flags
        agent_description :=
          some (defaultAgentDescription self.settings.name self.settings.version)
        health := some (defaultAgentHealth now)
        effective_config := some { config_map := config_map }
        remote_config_status := some defaultRemoteConfigStatus
        package_statuses := some defaultPackageStatuses
        agent_disconnect := Option.none }
    ({ self with agent_state := some st }, st)

/-- `HttpClient::set_health` (lines 200–208). -/
def HttpClient.set_health (self : HttpClient) (cb : ApiCallbacks) (now : Nat)
    (healthy : Bool) : HttpClient :=
  let (self', st) := self.get_status cb now
  let st' :=
    match st.health with
    | some h => { st with health := some { h with healthy := healthy } }
    | Option.none => st
  { self' with agent_state := some st' }

/-- `HttpClient::get_health` (lines 210–221): clone the stored health with
a refreshed start time.  The source unwraps the store and the health
field; both are always populated before any caller of `get_health` runs,
so the `Option.none` arms here are unreachable on source execution paths. -/
def HttpClient.get_health (self : HttpClient) (now : Nat) : Option AgentHealth :=
  match self.agent_state with
  | some st =>
    match st.health with
    | some h => some { h with start_time_unix_nano := now }
    | Option.none => Option.none
  | Option.none => Option.none

/-- The capability/flag stamping step shared by `send_and_receive`
(`src/httpclient/mod.rs` lines 113–118): when the agent state store is
initialised its `capabilities` and `flags` overwrite the message's;
otherwise the message goes out unchanged (a warning is logged). -/
def stampFeatures (store : Option AgentToServer) (message : AgentToServer) :
    AgentToServer :=
  match store with
  | some st => { message with capabilities := st.capabilities, flags := st.flags }
  | Option.none => message

/-- `HttpClient::send_and_receive` (lines 104–198) up to the wire call:
pre-increment `seqno`, stamp it on the message, capture
`last_sent_timestamp`, stamp `capabilities`/`flags` from the agent state
store when it is initialised, then hand the encoded message to the
network.  The oracle `post` stands for the POST + response decode; the
function returns the updated client, the message as it went to the wire,
and the network outcome. -/
def HttpClient.send_and_receive (self : HttpClient) (message : AgentToServer)
    (now : Nat) (post : AgentToServer → Except ApiClientError ServerToAgent) :
    HttpClient × AgentToServer × Except ApiClientError ServerToAgent :=
  let seqno := self.seqno + 1
  let message := { message with sequence_num := seqno }
  let self := { self with seqno := seqno, last_sent_timestamp := now }
  let message := stampFeatures self.agent_state message
  (self, message, post message)

/-- The loop body of `HttpClient::send` (lines 490–500): post each drained
message in order; push each successful response onto the inbox; stop at
the first failure, returning `StateResponse::Error` (messages after the
failure point are neither posted nor re-queued).  The third component is
the wire trace: the messages actually handed to `post`, in order. -/
def HttpClient.sendLoop (post : AgentToServer → Except ApiClientError ServerToAgent)
    (now : Nat) :
    HttpClient → List AgentToServer → HttpClient × StateResponse × List AgentToServer
  | self, [] => (self, .Reply "sent", [])
  | self, msg :: rest =>
    match self.send_and_receive msg now post with
    | (self', m, .ok resp) =>
      let next := HttpClient.sendLoop post now
        { self' with inbox := self'.inbox ++ [resp] } rest
      (next.1, next.2.1, m :: next.2.2)
    | (self', m, .error e) => (self', .Error e.toString, [m])

/-- `HttpClient::send` (lines 486–502): `std::mem::take` empties the
outbox, then the drained messages are posted one by one. -/
def HttpClient.send (self : HttpClient) (now : Nat)
    (post : AgentToServer → Except ApiClientError ServerToAgent) :
    HttpClient × StateResponse × List AgentToServer :=
  let pending := self.outbox
  let self := { self with outbox := [] }
  HttpClient.sendLoop post now self pending

/-- `HttpClient::connect` (lines 267–306).  `probe` is the outcome of the
HEAD request: `.ok status` when any HTTP response arrived, `.error e` on
a transport failure.  `envRetries` models `OPAMP_CONNECT_RETRIES`
(`unwrap_or("10")` then parse).  The middle result component is the
number of seconds slept (`std::thread::sleep`). -/
def HttpClient.connect (self : HttpClient) (probe : Except String Nat)
    (envRetries : Option Nat) :
    HttpClient × Nat × Except ApiClientError StateResponse :=
  match probe with
  | .ok status =>
    if status ≠ 404 then
      (self, 0, .ok (.Reply "remote server present"))
    else
      (self, 0, .ok (.Error (toString status)))
  | .error e =>
    let self := { self with backoff := self.backoff + 1 }
    let connect_retries := envRetries.getD 10
    if self.backoff > connect_retries then
      (self, 0, .error { code := 294, details := "Failed to connect to endpoint: " ++ e })
    else
      (self, 2 ^ self.backoff, .ok (.Error "endpoint not responding: retrying .."))

/-- `HttpClient::handshake` (lines 308–319): enqueue the full status; the
source's `Err` arm is dead because `get_status` only returns `Ok`. -/
def HttpClient.handshake (self : HttpClient) (cb : ApiCallbacks) (now : Nat) :
    HttpClient × Except ApiClientError StateResponse :=
  let (self, status) := self.get_status cb now
  ({ self with outbox := self.outbox ++ [status] }, .ok (.Reply "Handshake enqueued"))

/-- The `Ok(Some(reply)) => push / Ok(None) => {} / Err(e) => log` pattern
used for every callback invocation in both transports' `poll`. -/
def pushReplyHttp (self : HttpClient)
    (r : Except ApiClientError (Option AgentToServer)) : HttpClient :=
  match r with
  | .ok (some reply) => { self with outbox := self.outbox ++ [reply] }
  | .ok Option.none => self
  | .error _ => self

/-- The inbound-message dispatch block of `HttpClient::poll` (lines
360–464), field by field in source order.  The `Err` arm of `get_status`
in the ReportFullState branch is dead (`get_status` only returns `Ok`),
so dispatch never ends the poll early. -/
def HttpClient.dispatch (self : HttpClient) (cb : ApiCallbacks) (now : Nat)
    (msg : ServerToAgent) : HttpClient :=
  let self :=
    match msg.command with
    | some _ => pushReplyHttp self (cb.on_command msg)
    | Option.none => self
  -- `on_error` is invoked for `error_response` but mutates nothing here
  let self :=
    if msg.flags &&& ReportFullStateFlag ≠ 0 then
      if msg.instance_uid = self.settings.instance_id then
        let (self', st) := self.get_status cb now
        { self' with outbox := self'.outbox ++ [st] }
      else
        pushReplyHttp self (cb.on_health_check msg)
    else self
  let self :=
    match msg.remote_config with
    | some _ => pushReplyHttp self (cb.on_agent_remote_config msg)
    | Option.none => self
  let self :=
    match msg.connection_settings with
    | some offers =>
      let self :=
        match offers.own_metrics with
        | some _ => pushReplyHttp self (cb.on_connection_settings_offers msg)
        | Option.none => self
      let self :=
        match offers.own_traces with
        | some _ => pushReplyHttp self (cb.on_connection_settings_offers msg)
        | Option.none => self
      match offers.own_logs with
      | some _ => pushReplyHttp self (cb.on_connection_settings_offers msg)
      | Option.none => self
    | Option.none => self
  match msg.packages_available with
  | some _ => pushReplyHttp self (cb.on_packages_available msg)
  | Option.none => self

/-- `HttpClient::poll` (lines 321–484): health-transition heartbeat, then
flush check, then 30-second idle heartbeat, then drain one inbox message
(`Vec::pop`, which removes the LAST element) through the dispatcher,
then `on_loop`. -/
def HttpClient.poll (self : HttpClient) (cb : ApiCallbacks) (now : Nat) :
    HttpClient × StateResponse :=
  let self :=
    match self.get_health now with
    | some h =>
      if !h.healthy then
        let self := self.set_health cb now true
        { self with outbox := self.outbox ++
            [{ instance_uid := self.settings.instance_id
               health := some { h with healthy := true } }] }
      else self
    | Option.none => self
  if self.outbox ≠ [] then
    (self, .Reply "flushing queue")
  else if now ≥ self.last_sent_timestamp + SERVER_POLL_DELAY then
    ({ self with outbox := self.outbox ++ [{ instance_uid := self.settings.instance_id }] },
     .Reply "server poll")
  else if self.inbox.isEmpty then
    (self, .none)
  else
    let self :=
      match self.inbox.getLast? with
      | some msg =>
        let self := { self with inbox := self.inbox.dropLast }
        self.dispatch cb now msg
      | Option.none => self
    let self := pushReplyHttp self cb.on_loop
    if self.outbox.isEmpty then (self, .none) else (self, .Reply "messages pending")

/-- The response-body decoding stage of `HttpClient::send_and_receive`
(lines 178–196): which bytes reach `ServerToAgent::decode`.  With a
`Content-Encoding: gzip` header the body is gunzipped and its first byte
skipped; with any other `Content-Encoding` value the first byte of the
raw body is skipped; with no `Content-Encoding` header the body is
decoded whole, first byte included.  `gunzip` abstracts
`libdeflater::Decompressor::gzip_decompress`. -/
def httpDecodeBody (gunzip : List Nat → List Nat) (content_encoding : Option String)
    (body : List Nat) : List Nat :=
  match content_encoding with
  | some encoding =>
    if encoding = "gzip" then (gunzip body).drop 1 else body.drop 1
  | Option.none => body

/-- Outcome of running `ServerToAgent::decode(..).unwrap()`. -/
inductive DecodeOutcome where
  | ok (msg : ServerToAgent)
  | panicked
deriving Repr, DecidableEq

/-- The decode-and-unwrap step of `send_and_receive`: the source calls
`.unwrap()` on the decode result (lines 188, 191, 195), so a decode
failure aborts the thread instead of being dropped. -/
def httpDecodeResponse (decode : List Nat → Option ServerToAgent)
    (gunzip : List Nat → List Nat) (content_encoding : Option String)
    (body : List Nat) : DecodeOutcome :=
  match decode (httpDecodeBody gunzip content_encoding body) with
  | some m => .ok m
  | Option.none => .panicked

/-! ## `src/wsclient/mod.rs`: the full-duplex WebSocket transport

The socket is abstracted: `stream` records whether `self.stream` is
`Some`, `encode` abstracts `prost`'s `Message::encode`, and the frames
written by `to_sink` are returned as data. -/

/-- The mutable fields of `WsClient` (`src/wsclient/mod.rs` lines 19–29). -/
structure WsClient where
  settings : ConnectionSettings
  backoff : Nat
  seqno : Nat
  agent_state : Option AgentToServer
  stream : Bool
  outbox : List AgentToServer
  state : State
deriving Repr, DecidableEq

/-- `WsClient::new` (lines 31–50). -/
def WsClient.new (settings : ConnectionSettings) : WsClient :=
  { settings := settings
    backoff := 0
    seqno := 0
    agent_state := Option.none
    stream := false
    outbox := []
    state := .Disconnected "" }

/-- `WsClient::get_status` (lines 127–162): identical logic to the HTTP
variant. -/
def WsClient.get_status (self : WsClient) (cb : ApiCallbacks) (now : Nat) :
    WsClient × AgentToServer :=
  match self.agent_state with
  | some st => (self, st)
  | Option.none =>
    let config_map :=
      match cb.get_configuration with
      | .ok reply => reply
      | .error _ => Option.none
    let (capabilities, flags) := cb.get_features
    let st : AgentToServer :=
      { instance_uid := self.settings.instance_id
        sequence_num := 0
        capabilities := capabilities
        flags := flags
        agent_description :=
          some (defaultAgentDescription self.settings.name self.settings.version)
        health := some (defaultAgentHealth now)
        effective_config := some { config_map := config_map }
        remote_config_status := some defaultRemoteConfigStatus
        package_statuses := some defaultPackageStatuses
        agent_disconnect := Option.none }
    ({ self with agent_state := some st }, st)

/-- `WsClient::set_health` (lines 103–112). -/
def WsClient.set_health (self : WsClient) (cb : ApiCallbacks) (now : Nat)
    (healthy : Bool) : WsClient :=
  let (self', st) := self.get_status cb now
  let st' :=
    match st.health with
    | some h => { st with health := some { h with healthy := healthy } }
    | Option.none => st
  { self' with agent_state := some st' }

/-- `WsClient::get_health` (lines 114–125); as in the HTTP variant, the
source unwraps and the `Option.none` arms are unreachable on source
execution paths. -/
def WsClient.get_health (self : WsClient) (now : Nat) : Option AgentHealth :=
  match self.agent_state with
  | some st =>
    match st.health with
    | some h => some { h with start_time_unix_nano := now }
    | Option.none => Option.none
  | Option.none => Option.none

/-- The loop body of `WsClient::flush` (lines 75–87): stamp capabilities,
flags and the pre-incremented `seqno` onto each pending message, encode
it, and write `Message::Binary(buf)` to the socket — the frame is exactly
the encoder output, with no extra byte prepended.  Returns the final
`seqno` and the (message, frame) wire trace in write order.  A socket
write failure panics in the source (`.expect("Send failure")`), aborting
the run; write outcomes are not modelled. -/
def WsClient.flushLoop (encode : AgentToServer → List Nat)
    (capabilities flags : Nat) :
    Nat → List AgentToServer → Nat × List (AgentToServer × List Nat)
  | seqno, [] => (seqno, [])
  | seqno, msg :: rest =>
    let seqno := seqno + 1
    let msg := { msg with capabilities := capabilities, flags := flags,
                          sequence_num := seqno }
    let frame := encode msg
    let next := WsClient.flushLoop encode capabilities flags seqno rest
    (next.1, (msg, frame) :: next.2)

/-- `WsClient::flush` (lines 63–89): `mem::replace` empties the outbox;
capabilities and flags are read once from the agent state store (zero
when the store is uninitialised) and stamped on every drained message. -/
def WsClient.flush (self : WsClient) (encode : AgentToServer → List Nat) :
    WsClient × List (AgentToServer × List Nat) :=
  let pending := self.outbox
  let self := { self with outbox := [] }
  let capsFlags :=
    match self.agent_state with
    | some st => (st.capabilities, st.flags)
    | Option.none => (0, 0)
  let result := WsClient.flushLoop encode capsFlags.1 capsFlags.2 self.seqno pending
  ({ self with seqno := result.1 }, result.2)

/-- `WsClient::connect` (lines 171–199): reset health, then try
`connect_async`; on failure increment `backoff`, give up with a hard
error past the retry limit, otherwise sleep `2^backoff` seconds and
return `Ok(None)`.  The middle result component is the seconds slept. -/
def WsClient.connect (self : WsClient) (cb : ApiCallbacks) (now : Nat)
    (connectResult : Except String Unit) (envRetries : Option Nat) :
    WsClient × Nat × Except ApiClientError StateResponse :=
  let self := self.set_health cb now false
  match connectResult with
  | .ok _ => ({ self with stream := true }, 0, .ok (.Reply "connected"))
  | .error e =>
    let self := { self with backoff := self.backoff + 1 }
    let connect_retries := envRetries.getD 10
    if self.backoff > connect_retries then
      (self, 0, .error { code := 186, details := "Failed to connect to websocket: " ++ e })
    else
      (self, 2 ^ self.backoff, .ok .none)

/-- `WsClient::handshake` (lines 201–213). -/
def WsClient.handshake (self : WsClient) (cb : ApiCallbacks) (now : Nat) :
    WsClient × Except ApiClientError StateResponse :=
  let self := self.set_health cb now false
  let (self, firstmsg) := self.get_status cb now
  ({ self with outbox := self.outbox ++ [firstmsg] }, .ok (.Reply "handshake enqueued"))

/-- Callback push pattern for `WsClient` (same shape as `pushReplyHttp`). -/
def pushReplyWs (self : WsClient)
    (r : Except ApiClientError (Option AgentToServer)) : WsClient :=
  match r with
  | .ok (some reply) => { self with outbox := self.outbox ++ [reply] }
  | .ok Option.none => self
  | .error _ => self

/-- The inbound-message dispatch block of `WsClient::poll` (lines
241–347); same field order as the HTTP dispatcher, except that the
ReportFullState-on-self branch additionally calls `set_health(true)`
before re-reading the status (line 263). -/
def WsClient.dispatch (self : WsClient) (cb : ApiCallbacks) (now : Nat)
    (msg : ServerToAgent) : WsClient :=
  let self :=
    match msg.command with
    | some _ => pushReplyWs self (cb.on_command msg)
    | Option.none => self
  -- `on_error` is invoked for `error_response` but mutates nothing here
  let self :=
    if msg.flags &&& ReportFullStateFlag ≠ 0 then
      if msg.instance_uid = self.settings.instance_id then
        let self := self.set_health cb now true
        let (self', st) := self.get_status cb now
        { self' with outbox := self'.outbox ++ [st] }
      else
        pushReplyWs self (cb.on_health_check msg)
    else self
  let self :=
    match msg.remote_config with
    | some _ => pushReplyWs self (cb.on_agent_remote_config msg)
    | Option.none => self
  let self :=
    match msg.connection_settings with
    | some offers =>
      let self :=
        match offers.own_metrics with
        | some _ => pushReplyWs self (cb.on_connection_settings_offers msg)
        | Option.none => self
      let self :=
        match offers.own_traces with
        | some _ => pushReplyWs self (cb.on_connection_settings_offers msg)
        | Option.none => self
      match offers.own_logs with
      | some _ => pushReplyWs self (cb.on_connection_settings_offers msg)
      | Option.none => self
    | Option.none => self
  match msg.packages_available with
  | some _ => pushReplyWs self (cb.on_packages_available msg)
  | Option.none => self

/-- The frame-handling step of `WsClient::poll` (lines 236–240 and the
guarded block): skip the first byte of the received binary frame, try to
decode it, and on decode failure fall through silently — the message is
dropped and `poll` continues; no panic. -/
def WsClient.handleFrame (self : WsClient) (cb : ApiCallbacks) (now : Nat)
    (bytes : List Nat) (decode : List Nat → Option ServerToAgent) : WsClient :=
  match decode (bytes.drop 1) with
  | some msg => self.dispatch cb now msg
  | Option.none => self

/-- `WsClient::poll` (lines 215–368): health-transition heartbeat, flush
check, then read at most one inbound frame (`inbound` is `some bytes`
when a binary frame was successfully received; receive errors and
non-binary frames take the same fall-through path as `Option.none`),
dispatch it inline, then `on_loop`. -/
def WsClient.poll (self : WsClient) (cb : ApiCallbacks) (now : Nat)
    (inbound : Option (List Nat)) (decode : List Nat → Option ServerToAgent) :
    WsClient × StateResponse :=
  let self :=
    match self.get_health now with
    | some h =>
      if h.healthy = false then
        let self := self.set_health cb now true
        { self with outbox := self.outbox ++
            [{ instance_uid := self.settings.instance_id
               health := some { h with healthy := true } }] }
      else self
    | Option.none => self
  if self.outbox ≠ [] then
    (self, .Reply "flushing queue")
  else
    let self :=
      match inbound with
      | some bytes => self.handleFrame cb now bytes decode
      | Option.none => self
    let self := pushReplyWs self cb.on_loop
    if self.outbox.isEmpty then (self, .none) else (self, .Reply "messages pending")

/-! ## Process-run machinery

A process run, as far as the wire is concerned, is a sequence of rounds:
other client activity (handshake, poll, dispatch) only ever appends to
the outbox and mutates the agent state store, so a round is modelled as
"append an arbitrary batch to the outbox, then drain it".  `seqno` is
touched by no operation other than the drain itself. -/

/-- One HTTP round: messages enqueued since the last drain, plus the
network oracle in effect for this drain. -/
def httpWireRun :
    List (List AgentToServer × (AgentToServer → Except ApiClientError ServerToAgent)) →
    HttpClient → List AgentToServer
  | [], _ => []
  | (msgs, post) :: rest, self =>
    let self := { self with outbox := self.outbox ++ msgs }
    let step := self.send 0 post
    step.2.2 ++ httpWireRun rest step.1

/-- One WebSocket round: messages enqueued since the last flush. -/
def wsWireRun (encode : AgentToServer → List Nat) :
    List (List AgentToServer) → WsClient → List (AgentToServer × List Nat)
  | [], _ => []
  | msgs :: rest, self =>
    let self := { self with outbox := self.outbox ++ msgs }
    let step := self.flush encode
    step.2 ++ wsWireRun encode rest step.1

/-- The operations through which the source ever mutates the agent state
store: `get_status` (lazy initialisation) and `set_health`; every other
store access in both transports goes through these two methods. -/
inductive StoreOp where
  | getStatusOp (now : Nat)
  | setHealthOp (now : Nat) (healthy : Bool)

/-- Apply a sequence of store operations to an `HttpClient`. -/
def HttpClient.applyOps (cb : ApiCallbacks) :
    List StoreOp → HttpClient → HttpClient
  | [], self => self
  | .getStatusOp now :: rest, self => HttpClient.applyOps cb rest (self.get_status cb now).1
  | .setHealthOp now b :: rest, self => HttpClient.applyOps cb rest (self.set_health cb now b)

/-- Apply a sequence of store operations to a `WsClient`. -/
def WsClient.applyOps (cb : ApiCallbacks) :
    List StoreOp → WsClient → WsClient
  | [], self => self
  | .getStatusOp now :: rest, self => WsClient.applyOps cb rest (self.get_status cb now).1
  | .setHealthOp now b :: rest, self => WsClient.applyOps cb rest (self.set_health cb now b)

/-! ## Theorems -/

/-- Helper: `State::evaluate` returns `Ok` on every input. -/
theorem evaluate_ok (s : State) (c : Channel) :
    ∃ t, State.evaluate s c = .ok t := by
  cases s
  case Disconnected t => exact ⟨_, rfl⟩
  case Connecting t =>
    rcases h : c.connect with e | r
    · exact ⟨.Disconnected e.toString, by simp [State.evaluate, h]⟩
    · rcases r with d | e | _
      · exact ⟨.Connected d, by simp [State.evaluate, h]⟩
      · exact ⟨.Disconnected e, by simp [State.evaluate, h]⟩
      · exact ⟨.Connected nullstr, by simp [State.evaluate, h]⟩
  case Connected t =>
    rcases h : c.handshake with e | r
    · exact ⟨.Disconnected e.toString, by simp [State.evaluate, h]⟩
    · rcases r with d | e | _
      · exact ⟨.Sending d, by simp [State.evaluate, h]⟩
      · exact ⟨.Disconnected e, by simp [State.evaluate, h]⟩
      · exact ⟨.Polling nullstr, by simp [State.evaluate, h]⟩
  case Polling t =>
    rcases h : c.poll with e | r
    · exact ⟨.Connecting e.toString, by simp [State.evaluate, h]⟩
    · rcases r with d | e | _
      · exact ⟨.Sending d, by simp [State.evaluate, h]⟩
      · exact ⟨.Disconnected e, by simp [State.evaluate, h]⟩
      · exact ⟨.Polling t, by simp [State.evaluate, h]⟩
  case Sending t =>
    rcases h : c.send with e | r
    · exact ⟨.Connecting e.toString, by simp [State.evaluate, h]⟩
    · rcases r with d | e | _
      · exact ⟨.Waiting d, by simp [State.evaluate, h]⟩
      · exact ⟨.Polling e, by simp [State.evaluate, h]⟩
      · exact ⟨.Polling nullstr, by simp [State.evaluate, h]⟩
  case Waiting t =>
    rcases h : c.wait with e | r
    · exact ⟨.Connecting e.toString, by simp [State.evaluate, h]⟩
    · rcases r with d | e | _
      · exact ⟨.Polling d, by simp [State.evaluate, h]⟩
      · exact ⟨.Polling e, by simp [State.evaluate, h]⟩
      · exact ⟨.Waiting t, by simp [State.evaluate, h]⟩

/-- C1.  `State::evaluate` is a pure single-step function realising the
section 4.1 table exactly: `Disconnected → Connecting` unconditionally and
without consulting the transport (the channel argument is irrelevant
there); `Connecting`: Reply/None → Connected, Error and exception →
Disconnected; `Connected`: Reply → Sending, None → Polling, Error and
exception → Disconnected; `Polling`: Reply → Sending, None → stay,
Error → Disconnected, exception → Connecting; `Sending`: Reply → Waiting,
None/Error → Polling, exception → Connecting; `Waiting`: Reply → Polling,
None → stay, Error → Polling, exception → Connecting. -/
theorem fsm_transition_table (t d e : String) (err : ApiClientError)
    (c c' : Channel) (co hs pl sd wt : Except ApiClientError StateResponse) :
    State.evaluate (.Disconnected t) c = .ok (.Connecting "") ∧
    State.evaluate (.Disconnected t) c = State.evaluate (.Disconnected t) c' ∧
    State.evaluate (.Connecting t) ⟨.ok (.Reply d), hs, pl, sd, wt⟩ = .ok (.Connected d) ∧
    State.evaluate (.Connecting t) ⟨.ok .none, hs, pl, sd, wt⟩ = .ok (.Connected "") ∧
    State.evaluate (.Connecting t) ⟨.ok (.Error e), hs, pl, sd, wt⟩ = .ok (.Disconnected e) ∧
    State.evaluate (.Connecting t) ⟨.error err, hs, pl, sd, wt⟩ =
      .ok (.Disconnected err.toString) ∧
    State.evaluate (.Connected t) ⟨co, .ok (.Reply d), pl, sd, wt⟩ = .ok (.Sending d) ∧
    State.evaluate (.Connected t) ⟨co, .ok .none, pl, sd, wt⟩ = .ok (.Polling "") ∧
    State.evaluate (.Connected t) ⟨co, .ok (.Error e), pl, sd, wt⟩ = .ok (.Disconnected e) ∧
    State.evaluate (.Connected t) ⟨co, .error err, pl, sd, wt⟩ =
      .ok (.Disconnected err.toString) ∧
    State.evaluate (.Polling t) ⟨co, hs, .ok (.Reply d), sd, wt⟩ = .ok (.Sending d) ∧
    State.evaluate (.Polling t) ⟨co, hs, .ok .none, sd, wt⟩ = .ok (.Polling t) ∧
    State.evaluate (.Polling t) ⟨co, hs, .ok (.Error e), sd, wt⟩ = .ok (.Disconnected e) ∧
    State.evaluate (.Polling t) ⟨co, hs, .error err, sd, wt⟩ =
      .ok (.Connecting err.toString) ∧
    State.evaluate (.Sending t) ⟨co, hs, pl, .ok (.Reply d), wt⟩ = .ok (.Waiting d) ∧
    State.evaluate (.Sending t) ⟨co, hs, pl, .ok .none, wt⟩ = .ok (.Polling "") ∧
    State.evaluate (.Sending t) ⟨co, hs, pl, .ok (.Error e), wt⟩ = .ok (.Polling e) ∧
    State.evaluate (.Sending t) ⟨co, hs, pl, .error err, wt⟩ =
      .ok (.Connecting err.toString) ∧
    State.evaluate (.Waiting t) ⟨co, hs, pl, sd, .ok (.Reply d)⟩ = .ok (.Polling d) ∧
    State.evaluate (.Waiting t) ⟨co, hs, pl, sd, .ok .none⟩ = .ok (.Waiting t) ∧
    State.evaluate (.Waiting t) ⟨co, hs, pl, sd, .ok (.Error e)⟩ = .ok (.Polling e) ∧
    State.evaluate (.Waiting t) ⟨co, hs, pl, sd, .error err⟩ =
      .ok (.Connecting err.toString) :=
  ⟨rfl, rfl, rfl, rfl, rfl, rfl, rfl, rfl, rfl, rfl, rfl,
   rfl, rfl, rfl, rfl, rfl, rfl, rfl, rfl, rfl, rfl, rfl⟩

/-- C10.  `State::evaluate` returns `Ok` in every branch for every input,
so both transports' `trigger` fallback to `Disconnected("invalid…")` is
unreachable: each tick's state is exactly the `Ok` payload of the
transition table, whatever the fallback token would have been. -/
theorem evaluate_always_ok_trigger_fallback_unreachable
    (fallbackToken : String) (s : State) (c : Channel) :
    State.evaluate s c = .ok (trigger fallbackToken s c) := by
  obtain ⟨t, h⟩ := evaluate_ok s c
  rw [trigger, h]

/-- Helper: stamping capabilities/flags does not change `sequence_num`. -/
theorem stampFeatures_sequence_num (store : Option AgentToServer)
    (m : AgentToServer) : (stampFeatures store m).sequence_num = m.sequence_num := by
  cases store <;> rfl

/-- Helper: the HTTP send loop assigns consecutive pre-incremented
sequence numbers to the posted messages, leaves the outbox and the agent
state store untouched, and advances `seqno` by the number of posts. -/
theorem sendLoop_spec (post : AgentToServer → Except ApiClientError ServerToAgent)
    (now : Nat) :
    ∀ (pending : List AgentToServer) (self : HttpClient),
      (HttpClient.sendLoop post now self pending).1.seqno
          = self.seqno + (HttpClient.sendLoop post now self pending).2.2.length ∧
      (HttpClient.sendLoop post now self pending).2.2.map (fun m => m.sequence_num)
          = List.range' (self.seqno + 1) (HttpClient.sendLoop post now self pending).2.2.length ∧
      (HttpClient.sendLoop post now self pending).1.outbox = self.outbox ∧
      (HttpClient.sendLoop post now self pending).1.agent_state = self.agent_state := by
  intro pending
  induction pending with
  | nil =>
    intro self
    simp [HttpClient.sendLoop]
  | cons msg rest ih =>
    intro self
    simp only [HttpClient.sendLoop]
    split
    next self' m resp heq =>
      simp only [HttpClient.send_and_receive] at heq
      injection heq with h1 h23
      injection h23 with h2 h3
      subst h1
      subst h2
      obtain ⟨ih1, ih2, ih3, ih4⟩ :=
        ih { self with
               seqno := self.seqno + 1
               last_sent_timestamp := now
               inbox := self.inbox ++ [resp] }
      refine ⟨?_, ?_, ?_, ?_⟩
      · simpa [Nat.add_assoc, Nat.add_comm, Nat.add_left_comm] using ih1
      · simp only [List.map_cons, List.length_cons, List.range'_succ _ _ 1]
        refine congrArg₂ _ ?_ ?_
        · simp [stampFeatures_sequence_num]
        · simpa using ih2
      · simpa using ih3
      · simpa using ih4
    next self' m e heq =>
      simp only [HttpClient.send_and_receive] at heq
      injection heq with h1 h23
      injection h23 with h2 h3
      subst h1
      subst h2
      refine ⟨rfl, ?_, rfl, rfl⟩
      simp [stampFeatures_sequence_num, List.range'_succ _ _ 1]

/-- Helper: `HttpClient::send` in terms of the loop spec — consecutive
sequence numbers from `seqno + 1`, empty outbox afterwards, store kept. -/
theorem send_spec (post : AgentToServer → Except ApiClientError ServerToAgent)
    (now : Nat) (self : HttpClient) :
    (self.send now post).1.seqno = self.seqno + (self.send now post).2.2.length ∧
    (self.send now post).2.2.map (fun m => m.sequence_num)
        = List.range' (self.seqno + 1) (self.send now post).2.2.length ∧
    (self.send now post).1.outbox = [] ∧
    (self.send now post).1.agent_state = self.agent_state := by
  have h := sendLoop_spec post now self.outbox { self with outbox := [] }
  simpa [HttpClient.send] using h

/-- Helper: the concatenated HTTP wire trace of a whole run carries the
consecutive sequence numbers `seqno+1, seqno+2, …`. -/
theorem httpWireRun_seq :
    ∀ (rounds : List (List AgentToServer ×
        (AgentToServer → Except ApiClientError ServerToAgent)))
      (self : HttpClient),
      (httpWireRun rounds self).map (fun m => m.sequence_num)
        = List.range' (self.seqno + 1) (httpWireRun rounds self).length := by
  intro rounds
  induction rounds with
  | nil => intro self; simp [httpWireRun]
  | cons round rest ih =>
    intro self
    obtain ⟨msgs, post⟩ := round
    simp only [httpWireRun]
    obtain ⟨h1, h2, h3, h4⟩ :=
      send_spec post 0 { self with outbox := self.outbox ++ msgs }
    simp only [List.map_append, List.length_append, h2]
    rw [ih, h1]
    have := List.range'_append (self.seqno + 1)
      ((HttpClient.send { self with outbox := self.outbox ++ msgs } 0 post).2.2.length)
      ((httpWireRun rest
          (HttpClient.send { self with outbox := self.outbox ++ msgs } 0 post).1).length) 1
    simp only [Nat.mul_one, Nat.one_mul] at this
    rw [show self.seqno + 1 +
          (HttpClient.send { self with outbox := self.outbox ++ msgs } 0 post).2.2.length
        = self.seqno +
          (HttpClient.send { self with outbox := self.outbox ++ msgs } 0 post).2.2.length
          + 1 by omega] at this
    rw [this]
    congr 1
    omega

/-- Helper: the WebSocket flush loop assigns consecutive pre-incremented
sequence numbers and advances `seqno` by the number of frames. -/
theorem flushLoop_spec (encode : AgentToServer → List Nat) (capabilities flags : Nat) :
    ∀ (pending : List AgentToServer) (seqno : Nat),
      (WsClient.flushLoop encode capabilities flags seqno pending).1
          = seqno + pending.length ∧
      (WsClient.flushLoop encode capabilities flags seqno pending).2.map
          (fun p => p.1.sequence_num)
        = List.range' (seqno + 1) pending.length := by
  intro pending
  induction pending with
  | nil => intro seqno; simp [WsClient.flushLoop]
  | cons msg rest ih =>
    intro seqno
    obtain ⟨ih1, ih2⟩ := ih (seqno + 1)
    simp only [WsClient.flushLoop, List.map_cons, List.length_cons,
      List.range'_succ _ _ 1]
    constructor
    · rw [ih1]; omega
    · rw [ih2]

/-- Helper: `WsClient::flush` — consecutive sequence numbers from
`seqno + 1`, empty outbox afterwards, store kept. -/
theorem flush_spec (encode : AgentToServer → List Nat) (self : WsClient) :
    (self.flush encode).1.seqno = self.seqno + (self.flush encode).2.length ∧
    (self.flush encode).2.map (fun p => p.1.sequence_num)
        = List.range' (self.seqno + 1) (self.flush encode).2.length ∧
    (self.flush encode).1.outbox = [] ∧
    (self.flush encode).1.agent_state = self.agent_state := by
  rcases hs : self.agent_state with _ | st
  · obtain ⟨h1, h2⟩ := flushLoop_spec encode 0 0 self.outbox self.seqno
    have hlen : (WsClient.flushLoop encode 0 0 self.seqno self.outbox).2.length
        = self.outbox.length := by
      have hc := congrArg List.length h2
      simpa using hc
    refine ⟨?_, ?_, ?_, ?_⟩ <;> simp [WsClient.flush, hs, h1, h2, hlen]
  · obtain ⟨h1, h2⟩ :=
      flushLoop_spec encode st.capabilities st.flags self.outbox self.seqno
    have hlen : (WsClient.flushLoop encode st.capabilities st.flags
          self.seqno self.outbox).2.length = self.outbox.length := by
      have hc := congrArg List.length h2
      simpa using hc
    refine ⟨?_, ?_, ?_, ?_⟩ <;> simp [WsClient.flush, hs, h1, h2, hlen]

/-- Helper: the concatenated WebSocket wire trace of a whole run carries
the consecutive sequence numbers `seqno+1, seqno+2, …`. -/
theorem wsWireRun_seq (encode : AgentToServer → List Nat) :
    ∀ (rounds : List (List AgentToServer)) (self : WsClient),
      (wsWireRun encode rounds self).map (fun p => p.1.sequence_num)
        = List.range' (self.seqno + 1) (wsWireRun encode rounds self).length := by
  intro rounds
  induction rounds with
  | nil => intro self; simp [wsWireRun]
  | cons msgs rest ih =>
    intro self
    simp only [wsWireRun]
    obtain ⟨h1, h2, h3, h4⟩ :=
      flush_spec encode { self with outbox := self.outbox ++ msgs }
    simp only [List.map_append, List.length_append, h2]
    rw [ih, h1]
    have := List.range'_append (self.seqno + 1)
      ((WsClient.flush { self with outbox := self.outbox ++ msgs } encode).2.length)
      ((wsWireRun encode rest
          (WsClient.flush { self with outbox := self.outbox ++ msgs } encode).1).length) 1
    simp only [Nat.mul_one, Nat.one_mul] at this
    rw [show self.seqno + 1 +
          (WsClient.flush { self with outbox := self.outbox ++ msgs } encode).2.length
        = self.seqno +
          (WsClient.flush { self with outbox := self.outbox ++ msgs } encode).2.length
          + 1 by omega] at this
    rw [this]
    congr 1
    omega

/-- C2.  Per process run, the sequence numbers stamped on the wire are the
consecutive values `1, 2, 3, …`: both clients start their counter at `0`
and pre-increment before each wire encoding, so the first message of the
run carries `sequence_num = 1` and the stamped values are strictly
increasing across the whole run — for the HTTP client over any rounds of
enqueues and `send` drains (`send_and_receive` assigns the number even
when the POST then fails), and for the WebSocket client over any rounds
of enqueues and `flush` drains. -/
theorem sequence_nums_strictly_increasing
    (roundsH : List (List AgentToServer ×
        (AgentToServer → Except ApiClientError ServerToAgent)))
    (roundsW : List (List AgentToServer)) (encode : AgentToServer → List Nat)
    (settingsH settingsW : ConnectionSettings) :
    (httpWireRun roundsH (HttpClient.new settingsH)).map (fun m => m.sequence_num)
        = List.range' 1 (httpWireRun roundsH (HttpClient.new settingsH)).length ∧
    List.Chain' (· < ·)
      ((httpWireRun roundsH (HttpClient.new settingsH)).map (fun m => m.sequence_num)) ∧
    (wsWireRun encode roundsW (WsClient.new settingsW)).map (fun p => p.1.sequence_num)
        = List.range' 1 (wsWireRun encode roundsW (WsClient.new settingsW)).length ∧
    List.Chain' (· < ·)
      ((wsWireRun encode roundsW (WsClient.new settingsW)).map
        (fun p => p.1.sequence_num)) := by
  have hh := httpWireRun_seq roundsH (HttpClient.new settingsH)
  have hw := wsWireRun_seq encode roundsW (WsClient.new settingsW)
  have hseqH : (HttpClient.new settingsH).seqno = 0 := rfl
  have hseqW : (WsClient.new settingsW).seqno = 0 := rfl
  rw [hseqH] at hh
  rw [hseqW] at hw
  refine ⟨hh, ?_, hw, ?_⟩
  · rw [hh]; exact (List.pairwise_lt_range' 1 _).chain'
  · rw [hw]; exact (List.pairwise_lt_range' 1 _).chain'

/-- The agent state store carries exactly the capability/flag pair the
user's `get_features` callback returned (vacuously true while the store
is still uninitialised). -/
def storeFeaturesOk (cb : ApiCallbacks) (store : Option AgentToServer) : Prop :=
  ∀ a, store = some a →
    a.capabilities = cb.get_features.1 ∧ a.flags = cb.get_features.2

/-- Helper: `HttpClient::get_status` preserves the store invariant and
returns a payload stamped with the callback's features. -/
theorem http_get_status_spec (cb : ApiCallbacks) (now : Nat) (self : HttpClient)
    (h : storeFeaturesOk cb self.agent_state) :
    storeFeaturesOk cb (self.get_status cb now).1.agent_state ∧
    (self.get_status cb now).2.capabilities = cb.get_features.1 ∧
    (self.get_status cb now).2.flags = cb.get_features.2 := by
  rcases hs : self.agent_state with _ | a
  · refine ⟨?_, ?_, ?_⟩
    · intro x hx
      simp [HttpClient.get_status, hs] at hx
      subst hx
      exact ⟨rfl, rfl⟩
    · simp [HttpClient.get_status, hs]
    · simp [HttpClient.get_status, hs]
  · obtain ⟨hc, hf⟩ := h a hs
    refine ⟨?_, ?_, ?_⟩
    · intro x hx
      simp [HttpClient.get_status, hs] at hx
      subst hx
      exact ⟨hc, hf⟩
    · simpa [HttpClient.get_status, hs] using hc
    · simpa [HttpClient.get_status, hs] using hf

/-- Helper: `HttpClient::set_health` preserves the store invariant. -/
theorem http_set_health_spec (cb : ApiCallbacks) (now : Nat) (b : Bool)
    (self : HttpClient) (h : storeFeaturesOk cb self.agent_state) :
    storeFeaturesOk cb (self.set_health cb now b).agent_state := by
  obtain ⟨h1, h2, h3⟩ := http_get_status_spec cb now self h
  intro x hx
  simp only [HttpClient.set_health] at hx
  rcases hh : (self.get_status cb now).2.health with _ | hv <;>
    simp [hh] at hx <;> subst hx <;> simp [h2, h3]

/-- Helper: the store invariant holds after any sequence of store
operations from a fresh `HttpClient`. -/
theorem http_applyOps_store (cb : ApiCallbacks) :
    ∀ (ops : List StoreOp) (self : HttpClient),
      storeFeaturesOk cb self.agent_state →
      storeFeaturesOk cb (HttpClient.applyOps cb ops self).agent_state := by
  intro ops
  induction ops with
  | nil => intro self h; simpa [HttpClient.applyOps] using h
  | cons op rest ih =>
    intro self h
    cases op with
    | getStatusOp now =>
      exact ih _ (http_get_status_spec cb now self h).1
    | setHealthOp now b =>
      exact ih _ (http_set_health_spec cb now b self h)

/-- Helper: when the store is initialised, every message the HTTP send
loop puts on the wire is stamped with the store's capabilities/flags. -/
theorem sendLoop_wire_features
    (post : AgentToServer → Except ApiClientError ServerToAgent) (now : Nat) :
    ∀ (pending : List AgentToServer) (self : HttpClient) (a : AgentToServer),
      self.agent_state = some a →
      ∀ m ∈ (HttpClient.sendLoop post now self pending).2.2,
        m.capabilities = a.capabilities ∧ m.flags = a.flags := by
  intro pending
  induction pending with
  | nil =>
    intro self a ha m hm
    simp [HttpClient.sendLoop] at hm
  | cons msg rest ih =>
    intro self a ha m hm
    simp only [HttpClient.sendLoop] at hm
    revert hm
    split
    next self' mm resp heq =>
      simp only [HttpClient.send_and_receive] at heq
      injection heq with h1 h23
      injection h23 with h2 h3
      subst h1
      subst h2
      intro hm
      rcases List.mem_cons.mp hm with hm | hm
      · subst hm
        simp [stampFeatures, ha]
      · exact ih
          { self with
              seqno := self.seqno + 1
              last_sent_timestamp := now
              inbox := self.inbox ++ [resp] } a ha m hm
    next self' mm e heq =>
      simp only [HttpClient.send_and_receive] at heq
      injection heq with h1 h23
      injection h23 with h2 h3
      subst h1
      subst h2
      intro hm
      rcases List.mem_cons.mp hm with hm | hm
      · subst hm
        simp [stampFeatures, ha]
      · simp at hm

/-- Helper: `WsClient::get_status` preserves the store invariant and
returns a payload stamped with the callback's features. -/
theorem ws_get_status_spec (cb : ApiCallbacks) (now : Nat) (self : WsClient)
    (h : storeFeaturesOk cb self.agent_state) :
    storeFeaturesOk cb (self.get_status cb now).1.agent_state ∧
    (self.get_status cb now).2.capabilities = cb.get_features.1 ∧
    (self.get_status cb now).2.flags = cb.get_features.2 := by
  rcases hs : self.agent_state with _ | a
  · refine ⟨?_, ?_, ?_⟩
    · intro x hx
      simp [WsClient.get_status, hs] at hx
      subst hx
      exact ⟨rfl, rfl⟩
    · simp [WsClient.get_status, hs]
    · simp [WsClient.get_status, hs]
  · obtain ⟨hc, hf⟩ := h a hs
    refine ⟨?_, ?_, ?_⟩
    · intro x hx
      simp [WsClient.get_status, hs] at hx
      subst hx
      exact ⟨hc, hf⟩
    · simpa [WsClient.get_status, hs] using hc
    · simpa [WsClient.get_status, hs] using hf

/-- Helper: `WsClient::set_health` preserves the store invariant. -/
theorem ws_set_health_spec (cb : ApiCallbacks) (now : Nat) (b : Bool)
    (self : WsClient) (h : storeFeaturesOk cb self.agent_state) :
    storeFeaturesOk cb (self.set_health cb now b).agent_state := by
  obtain ⟨h1, h2, h3⟩ := ws_get_status_spec cb now self h
  intro x hx
  simp only [WsClient.set_health] at hx
  rcases hh : (self.get_status cb now).2.health with _ | hv <;>
    simp [hh] at hx <;> subst hx <;> simp [h2, h3]

/-- Helper: the store invariant holds after any sequence of store
operations from a fresh `WsClient`. -/
theorem ws_applyOps_store (cb : ApiCallbacks) :
    ∀ (ops : List StoreOp) (self : WsClient),
      storeFeaturesOk cb self.agent_state →
      storeFeaturesOk cb (WsClient.applyOps cb ops self).agent_state := by
  intro ops
  induction ops with
  | nil => intro self h; simpa [WsClient.applyOps] using h
  | cons op rest ih =>
    intro self h
    cases op with
    | getStatusOp now =>
      exact ih _ (ws_get_status_spec cb now self h).1
    | setHealthOp now b =>
      exact ih _ (ws_set_health_spec cb now b self h)

/-- Helper: every frame the WebSocket flush loop emits carries the
capability/flag pair it was given. -/
theorem flushLoop_wire_features (encode : AgentToServer → List Nat)
    (capabilities flags : Nat) :
    ∀ (pending : List AgentToServer) (seqno : Nat),
      ∀ p ∈ (WsClient.flushLoop encode capabilities flags seqno pending).2,
        p.1.capabilities = capabilities ∧ p.1.flags = flags := by
  intro pending
  induction pending with
  | nil => intro seqno p hp; simp [WsClient.flushLoop] at hp
  | cons msg rest ih =>
    intro seqno p hp
    simp only [WsClient.flushLoop] at hp
    rcases List.mem_cons.mp hp with hp | hp
    · subst hp; exact ⟨rfl, rfl⟩
    · exact ih (seqno + 1) p hp

/-- C3.  Once the agent state store is initialised — after any sequence of
the store-mutating operations (`get_status`, `set_health`) starting from a
fresh client — its `capabilities` and `flags` equal the pair returned by
the `get_features` callback, and every message either transport puts on
the wire (HTTP `send` over any outbox, WebSocket `flush` over any outbox)
carries exactly those values. -/
theorem outbound_capabilities_flags_from_store
    (cb : ApiCallbacks) (opsH opsW : List StoreOp)
    (settingsH settingsW : ConnectionSettings) (now : Nat)
    (post : AgentToServer → Except ApiClientError ServerToAgent)
    (encode : AgentToServer → List Nat) (msgsH msgsW : List AgentToServer)
    (a b : AgentToServer) :
    ((HttpClient.applyOps cb opsH (HttpClient.new settingsH)).agent_state = some a →
      (a.capabilities = cb.get_features.1 ∧ a.flags = cb.get_features.2) ∧
      ∀ m ∈ (HttpClient.send
          { HttpClient.applyOps cb opsH (HttpClient.new settingsH) with
            outbox := msgsH } now post).2.2,
        m.capabilities = cb.get_features.1 ∧ m.flags = cb.get_features.2) ∧
    ((WsClient.applyOps cb opsW (WsClient.new settingsW)).agent_state = some b →
      (b.capabilities = cb.get_features.1 ∧ b.flags = cb.get_features.2) ∧
      ∀ p ∈ (WsClient.flush
          { WsClient.applyOps cb opsW (WsClient.new settingsW) with
            outbox := msgsW } encode).2,
        p.1.capabilities = cb.get_features.1 ∧ p.1.flags = cb.get_features.2) := by
  constructor
  · intro ha
    have hinv : storeFeaturesOk cb
        (HttpClient.applyOps cb opsH (HttpClient.new settingsH)).agent_state := by
      apply http_applyOps_store
      intro x hx
      simp [HttpClient.new] at hx
    obtain ⟨hc, hf⟩ := hinv a ha
    refine ⟨⟨hc, hf⟩, ?_⟩
    intro m hm
    have hwire := sendLoop_wire_features post now msgsH
      { HttpClient.applyOps cb opsH (HttpClient.new settingsH) with
        outbox := ([] : List AgentToServer) } a (by simpa using ha) m
    have := hwire (by simpa [HttpClient.send] using hm)
    exact ⟨this.1.trans hc, this.2.trans hf⟩
  · intro hb
    have hinv : storeFeaturesOk cb
        (WsClient.applyOps cb opsW (WsClient.new settingsW)).agent_state := by
      apply ws_applyOps_store
      intro x hx
      simp [WsClient.new] at hx
    obtain ⟨hc, hf⟩ := hinv b hb
    refine ⟨⟨hc, hf⟩, ?_⟩
    intro p hp
    have hwire := flushLoop_wire_features encode b.capabilities b.flags msgsW
      (WsClient.applyOps cb opsW (WsClient.new settingsW)).seqno p
      (by simpa [WsClient.flush, hb] using hp)
    exact ⟨hwire.1.trans hc, hwire.2.trans hf⟩

/-- A concrete callback record used to evaluate the model: features
`(3, 5)`, every other callback inert. -/
def cbSample : ApiCallbacks :=
  { get_configuration := .ok Option.none
    get_features := (3, 5)
    on_loop := .ok Option.none
    on_health_check := fun _ => .ok Option.none
    on_command := fun _ => .ok Option.none
    on_agent_remote_config := fun _ => .ok Option.none
    on_connection_settings_offers := fun _ => .ok Option.none
    on_packages_available := fun _ => .ok Option.none }

/-- The agent state store value produced by `get_status` at time `0` from
default settings and `cbSample`. -/
def storeSample : AgentToServer :=
  { instance_uid := ""
    sequence_num := 0
    capabilities := 3
    flags := 5
    agent_description :=
      some { service_name := "io.opentelemetry.collector", service_version := "0.0.1" }
    health := some { healthy := false, start_time_unix_nano := 0, last_error := "" }
    effective_config := some { config_map := Option.none }
    remote_config_status := some defaultRemoteConfigStatus
    package_statuses := some defaultPackageStatuses
    agent_disconnect := Option.none }

/-- Witness for C3 at a concrete input: initialise both stores via one
`get_status`, enqueue one default message each, and observe the stamped
wire values equal `cbSample`'s features on both transports. -/
theorem outbound_capabilities_flags_from_store_witness :
    (({ sequence_num := 1, capabilities := 3, flags := 5 } : AgentToServer).capabilities
        = cbSample.get_features.1 ∧
     ({ sequence_num := 1, capabilities := 3, flags := 5 } : AgentToServer).flags
        = cbSample.get_features.2) ∧
    (({ sequence_num := 1, capabilities := 3, flags := 5 } : AgentToServer).capabilities
        = cbSample.get_features.1 ∧
     ({ sequence_num := 1, capabilities := 3, flags := 5 } : AgentToServer).flags
        = cbSample.get_features.2) := by
  have h := outbound_capabilities_flags_from_store cbSample
    [StoreOp.getStatusOp 0] [StoreOp.getStatusOp 0] {} {} 0
    (fun _ => .ok {}) (fun _ => []) [{}] [{}] storeSample storeSample
  refine ⟨(h.1 (by decide)).2
      ({ sequence_num := 1, capabilities := 3, flags := 5 } : AgentToServer)
      (by decide),
    (h.2 (by decide)).2
      (({ sequence_num := 1, capabilities := 3, flags := 5 } : AgentToServer),
        ([] : List Nat))
      (by decide)⟩

/-- C4 counterexample.  With no `Content-Encoding` header on the
response, the decoder parses the whole body — the first byte is NOT
stripped: on body `[7, 3]` the bytes handed to `ServerToAgent::decode`
are `[7, 3]`, not the claimed `[3]`. -/
theorem http_header_not_stripped_without_content_encoding :
    httpDecodeBody (fun b => b) Option.none [7, 3] = [7, 3] ∧
    ([7, 3] : List Nat).drop 1 = [3] ∧
    httpDecodeBody (fun b => b) Option.none [7, 3] ≠ ([7, 3] : List Nat).drop 1 := by
  refine ⟨rfl, rfl, ?_⟩
  decide

/-- C4 amended.  The one-byte protocol header is stripped exactly when the
response carries a `Content-Encoding` header: with `gzip` the gunzipped
body loses its first byte, with any other encoding value the raw body
loses its first byte, and with no `Content-Encoding` header at all the
body is parsed whole, first byte included. -/
theorem http_header_skip_depends_on_content_encoding
    (gunzip : List Nat → List Nat) (enc : String) (body : List Nat) :
    httpDecodeBody gunzip (some enc) body
        = (if enc = "gzip" then gunzip body else body).drop 1 ∧
    httpDecodeBody gunzip Option.none body = body := by
  constructor
  · by_cases h : enc = "gzip" <;> simp [httpDecodeBody, h]
  · rfl

/-- A WebSocket client whose store is initialised (features `(3, 5)`) and
whose outbox holds one default message, used to evaluate `flush`. -/
def wsFlushSample : WsClient :=
  { WsClient.new {} with agent_state := some storeSample, outbox := [{}] }

/-- C5 (code bug).  Evaluating `WsClient::flush` on one pending message
with the encoder `fun a => [7, a.sequence_num]`: the emitted binary frame
is `[7, 1]` — exactly the protobuf payload of the stamped message, with
no header byte prepended (a header-prefixed frame would be
`hdr :: [7, 1]`, which `[7, 1]` can never equal). -/
theorem ws_flush_emits_bare_payload :
    ((wsFlushSample.flush (fun a => [7, a.sequence_num])).2.map Prod.snd = [[7, 1]]) ∧
    ((wsFlushSample.flush (fun a => [7, a.sequence_num])).2.map
        (fun p => (fun a => [7, a.sequence_num]) p.1) = [[7, 1]]) ∧
    (∀ hdr : Nat, ([7, 1] : List Nat) ≠ hdr :: [7, 1]) := by
  refine ⟨rfl, rfl, ?_⟩
  intro hdr
  simp

/-- C6 (code bug).  On an inbound payload that fails protobuf decoding,
the WebSocket poll path drops the frame and leaves the client unchanged
(no panic, the FSM continues), but the HTTP response path calls
`.unwrap()` on the decode result and panics. -/
theorem http_decode_failure_panics_ws_drops :
    httpDecodeResponse (fun _ => Option.none) (fun b => b) Option.none [255]
        = .panicked ∧
    WsClient.handleFrame wsFlushSample cbSample 0 [0, 255] (fun _ => Option.none)
        = wsFlushSample := by
  exact ⟨rfl, rfl⟩

/-- C7 counterexample.  An HTTP connect attempt whose HEAD probe yields a
404 response fails (it returns `StateResponse::Error`, sending the FSM to
`Disconnected`), yet the backoff counter is NOT incremented and no sleep
happens: at `backoff = 5` the client comes back unchanged. -/
theorem http_connect_404_skips_backoff :
    HttpClient.connect { HttpClient.new {} with backoff := 5 } (.ok 404) Option.none
      = ({ HttpClient.new {} with backoff := 5 }, 0, .ok (.Error "404")) ∧
    ({ HttpClient.new {} with backoff := 5 } : HttpClient).backoff = 5 := by
  exact ⟨rfl, rfl⟩

/-- Helper: `WsClient::get_status` never changes the backoff counter. -/
theorem ws_get_status_backoff (self : WsClient) (cb : ApiCallbacks) (now : Nat) :
    ((self.get_status cb now).1).backoff = self.backoff := by
  rcases hs : self.agent_state with _ | a <;> simp [WsClient.get_status, hs]

/-- Helper: `WsClient::set_health` never changes the backoff counter. -/
theorem ws_set_health_backoff (self : WsClient) (cb : ApiCallbacks) (now : Nat)
    (b : Bool) : (self.set_health cb now b).backoff = self.backoff := by
  simp only [WsClient.set_health]
  exact ws_get_status_backoff self cb now

/-- C7 amended.  Backoff applies to transport-level connect failures: on a
probe/socket error both transports pre-increment `backoff`; while the
incremented counter is still at most the `OPAMP_CONNECT_RETRIES` limit
(default 10) they sleep `2 ^ backoff` seconds and return a non-fatal
`Ok` (`Error` for HTTP, `None` for WebSocket) so the FSM retries, and
once the counter exceeds the limit they return a hard `Err`.  An HTTP
HEAD that yields a 404 response, however, returns `StateResponse::Error`
without touching the backoff counter and without sleeping. -/
theorem connect_backoff_on_transport_error
    (stH : HttpClient) (stW : WsClient) (cb : ApiCallbacks) (now : Nat)
    (e : String) (env : Option Nat) :
    (HttpClient.connect stH (.error e) env =
      if stH.backoff + 1 > env.getD 10 then
        ({ stH with backoff := stH.backoff + 1 }, 0,
          .error { code := 294, details := "Failed to connect to endpoint: " ++ e })
      else
        ({ stH with backoff := stH.backoff + 1 }, 2 ^ (stH.backoff + 1),
          .ok (.Error "endpoint not responding: retrying .."))) ∧
    (WsClient.connect stW cb now (.error e) env =
      if stW.backoff + 1 > env.getD 10 then
        ({ stW.set_health cb now false with backoff := stW.backoff + 1 }, 0,
          .error { code := 186, details := "Failed to connect to websocket: " ++ e })
      else
        ({ stW.set_health cb now false with backoff := stW.backoff + 1 },
          2 ^ (stW.backoff + 1), .ok .none)) ∧
    (HttpClient.connect stH (.ok 404) env
      = (stH, 0, .ok (.Error (toString 404)))) := by
  have hwb := ws_set_health_backoff stW cb now false
  refine ⟨?_, ?_, rfl⟩
  · by_cases h : stH.backoff + 1 > env.getD 10 <;>
      simp [HttpClient.connect, h]
  · by_cases h : stW.backoff + 1 > env.getD 10 <;>
      simp [WsClient.connect, hwb, h]

/-- Two distinct pending messages for evaluating a failing send. -/
def msgOne : AgentToServer := { instance_uid := "m1" }

def msgTwo : AgentToServer := { instance_uid := "m2" }

/-- An HTTP client with two messages pending in the outbox. -/
def httpSendSample : HttpClient :=
  { HttpClient.new {} with outbox := [msgOne, msgTwo] }

/-- C8 counterexample.  When the POST for the first drained message fails,
`send` returns `StateResponse::Error` — but the second drained message
`msgTwo`, which was never transmitted (the wire trace contains only the
first message), is NOT still queued: `mem::take` emptied the outbox and
nothing is re-queued, so the in-flight message is lost. -/
theorem http_send_failure_loses_drained_messages :
    msgTwo ∈ httpSendSample.outbox ∧
    (httpSendSample.send 0 (fun _ => .error { code := 1, details := "boom" })).2.1
        = .Error "boom" ∧
    (httpSendSample.send 0 (fun _ => .error { code := 1, details := "boom" })).2.2
        = [{ msgOne with sequence_num := 1 }] ∧
    (httpSendSample.send 0 (fun _ => .error { code := 1, details := "boom" })).1.outbox
        = [] := by
  refine ⟨by decide, rfl, rfl, rfl⟩

/-- C8 amended.  `HttpClient::send` always leaves the outbox empty: the
drained messages that were not yet transmitted when a POST fails are
discarded, not re-queued — a failed send loses the in-flight messages
(only the error is reported to the FSM). -/
theorem http_send_always_empties_outbox (self : HttpClient) (now : Nat)
    (post : AgentToServer → Except ApiClientError ServerToAgent) :
    (self.send now post).1.outbox = [] :=
  (send_spec post now self).2.2.1

/-- Helper: pushing a callback reply never touches the inbox. -/
theorem pushReplyHttp_inbox (self : HttpClient)
    (r : Except ApiClientError (Option AgentToServer)) :
    (pushReplyHttp self r).inbox = self.inbox := by
  rcases r with e | o
  · rfl
  · cases o <;> rfl

/-- Helper: `HttpClient::get_status` never touches the inbox. -/
theorem http_get_status_inbox (self : HttpClient) (cb : ApiCallbacks) (now : Nat) :
    ((self.get_status cb now).1).inbox = self.inbox := by
  rcases hs : self.agent_state with _ | a <;> simp [HttpClient.get_status, hs]

/-- Helper: `HttpClient::set_health` never touches the inbox. -/
theorem http_set_health_inbox (self : HttpClient) (cb : ApiCallbacks) (now : Nat)
    (b : Bool) : (self.set_health cb now b).inbox = self.inbox := by
  simp only [HttpClient.set_health]
  exact http_get_status_inbox self cb now

/-- Helper: the HTTP dispatcher only appends to the outbox and mutates the
store; the inbox is untouched. -/
theorem http_dispatch_inbox (self : HttpClient) (cb : ApiCallbacks) (now : Nat)
    (m : ServerToAgent) : (self.dispatch cb now m).inbox = self.inbox := by
  unfold HttpClient.dispatch
  repeat' split
  all_goals try simp [pushReplyHttp_inbox, http_get_status_inbox]
  all_goals (split <;> simp [pushReplyHttp_inbox, http_get_status_inbox])

/-- Helper: the HTTP send loop only appends the received responses, in
arrival order, to the inbox. -/
theorem sendLoop_inbox (post : AgentToServer → Except ApiClientError ServerToAgent)
    (now : Nat) :
    ∀ (pending : List AgentToServer) (self : HttpClient),
      ∃ resps, (HttpClient.sendLoop post now self pending).1.inbox
        = self.inbox ++ resps := by
  intro pending
  induction pending with
  | nil => intro self; exact ⟨[], by simp [HttpClient.sendLoop]⟩
  | cons msg rest ih =>
    intro self
    simp only [HttpClient.sendLoop]
    split
    next self' m resp heq =>
      simp only [HttpClient.send_and_receive] at heq
      injection heq with h1 h23
      injection h23 with h2 h3
      subst h1
      subst h2
      obtain ⟨resps, hr⟩ := ih
        { self with
            seqno := self.seqno + 1
            last_sent_timestamp := now
            inbox := self.inbox ++ [resp] }
      refine ⟨resp :: resps, ?_⟩
      rw [hr]
      simp
    next self' m e heq =>
      simp only [HttpClient.send_and_receive] at heq
      injection heq with h1 h23
      injection h23 with h2 h3
      subst h1
      subst h2
      exact ⟨[], by simp⟩

/-- Two distinct inbound responses; `inA` was inserted first (oldest). -/
def inA : ServerToAgent := { instance_uid := "A" }

def inB : ServerToAgent := { instance_uid := "B" }

/-- The stored payload with health already reported healthy. -/
def storeHealthy : AgentToServer :=
  { storeSample with
      health := some { healthy := true, start_time_unix_nano := 0, last_error := "" } }

/-- An idle, healthy HTTP client holding two inbox messages. -/
def httpPollSample : HttpClient :=
  { HttpClient.new {} with
      agent_state := some storeHealthy
      inbox := [inA, inB]
      last_sent_timestamp := 100 }

/-- C9 counterexample.  With inbox `[inA, inB]` (`inA` the oldest), an
idle `poll` tick drains `inB` — `Vec::pop` removes the LAST element — and
leaves `[inA]`; the claim that the oldest message is drained next would
leave `[inB]` instead. -/
theorem http_poll_drains_newest_not_oldest :
    httpPollSample.inbox = [inA, inB] ∧
    (HttpClient.poll httpPollSample cbSample 100).1.inbox = [inA] ∧
    inA ≠ inB := by
  refine ⟨rfl, by decide, by decide⟩

/-- C9 amended.  The HTTP inbox is appended in arrival order by `send`,
but `poll` drains it LIFO: on an idle tick (store healthy, outbox empty,
idle timer not expired, inbox non-empty) the message removed is the most
recently inserted one (`Vec::pop` — `dropLast` remains), not the oldest. -/
theorem http_inbox_drained_newest_first
    (st : HttpClient) (cb : ApiCallbacks) (now : Nat) (a : AgentToServer)
    (hv : AgentHealth) (hstore : st.agent_state = some a)
    (hh : a.health = some hv) (hhealthy : hv.healthy = true)
    (hout : st.outbox = [])
    (htime : now < st.last_sent_timestamp + SERVER_POLL_DELAY)
    (hinbox : st.inbox ≠ []) :
    (st.poll cb now).1.inbox = st.inbox.dropLast ∧
    (∀ (st₂ : HttpClient) (now₂ : Nat)
        (post : AgentToServer → Except ApiClientError ServerToAgent),
      ∃ resps, (st₂.send now₂ post).1.inbox = st₂.inbox ++ resps) := by
  constructor
  · have hnot : ¬ (now ≥ st.last_sent_timestamp + SERVER_POLL_DELAY) := by omega
    have hne : st.inbox.isEmpty = false := by
      simpa [List.isEmpty_iff] using hinbox
    simp only [HttpClient.poll, HttpClient.get_health, hstore, hh, hhealthy,
      Bool.not_true, Bool.false_eq_true, if_false, hout, ne_eq,
      not_true_eq_false, if_neg hnot, hne]
    rw [List.getLast?_eq_getLast st.inbox hinbox]
    split <;>
      simp [pushReplyHttp_inbox, http_dispatch_inbox]
  · intro st₂ now₂ post
    obtain ⟨resps, hr⟩ := sendLoop_inbox post now₂ st₂.outbox { st₂ with outbox := [] }
    exact ⟨resps, by simpa [HttpClient.send] using hr⟩

/-- Witness for C9's amended statement at the concrete idle client. -/
theorem http_inbox_drained_newest_first_witness :
    (HttpClient.poll httpPollSample cbSample 100).1.inbox
        = httpPollSample.inbox.dropLast ∧
    ∃ resps,
      (httpSendSample.send 0
          (fun _ => .error { code := 1, details := "boom" })).1.inbox
        = httpSendSample.inbox ++ resps := by
  have h := http_inbox_drained_newest_first httpPollSample cbSample 100
    storeHealthy { healthy := true, start_time_unix_nano := 0, last_error := "" }
    rfl rfl rfl rfl (by decide) (by decide)
  exact ⟨h.1, h.2 httpSendSample 0 _⟩

end Opamp
